import Mathlib

/-!
Verification of the prioritized codebase scanner of `devmate_large.py`
(`analyze_codebase_smart` and its helpers `_calculate_file_priority`,
`_is_test_file`, `_analyze_file_content`).

The Python code is shallowly embedded: the filesystem is an inductive
directory tree, `os.walk` is a recursive walk with the same top-down
pruning, the regular expressions of the content heuristics are expressed
with a small executable matching-combinator library faithful to the
semantics of the patterns used (literals, character classes, greedy
star/plus with backtracking, multiline end-of-line anchor), and machine
integers are `Nat`/`Int` (the Python integers are unbounded, so no
modular arithmetic is needed).
-/

/-! ### Basic character and string utilities -/

/-- ASCII lower-casing of one character, modelling `str.lower()` on the
ASCII identifiers and keywords the scanner compares. -/
def asciiLower (c : Char) : Char :=
  if 'A' ≤ c && c ≤ 'Z' then Char.ofNat (c.toNat + 32) else c

/-- Lower-case a whole string (models `str.lower()`). -/
def lowerStr (s : String) : String :=
  String.mk (s.data.map asciiLower)

/-- Boolean prefix test on character lists. -/
def isPrefixB : List Char → List Char → Bool
  | [], _ => true
  | _ :: _, [] => false
  | a :: as, b :: bs => a == b && isPrefixB as bs

/-- Boolean contiguous-substring test on character lists, modelling the
Python `in` operator on strings. -/
def isInfixB : List Char → List Char → Bool
  | pat, [] => isPrefixB pat []
  | pat, s@(_ :: t) => isPrefixB pat s || isInfixB pat t

/-- Substring test on strings: `strContains s pat` models `pat in s`. -/
def strContains (s pat : String) : Bool :=
  isInfixB pat.data s.data

/-- Number of occurrences of character `c` in `s`, modelling `s.count(c)`. -/
def countChar (s : String) (c : Char) : Nat :=
  (s.data.filter (fun x => x == c)).length

/-- Whitespace characters recognised by Python `str.strip` and `\s`
(space, tab, newline, carriage return, vertical tab, form feed). -/
def isSpaceCh (c : Char) : Bool :=
  c == ' ' || c == '\t' || c == '\n' || c == '\r' ||
  c == Char.ofNat 11 || c == Char.ofNat 12

/-- Python `str.strip()`: drop whitespace from both ends. -/
def pyStrip (s : String) : String :=
  String.mk (((s.data.dropWhile isSpaceCh).reverse.dropWhile isSpaceCh).reverse)

/-- Test whether the last character of `s` is `c` (models `s.endswith(c)`
for a one-character argument). -/
def lastCharIs (s : String) (c : Char) : Bool :=
  s.data.getLast? == some c

/-- Split a character list at newline characters; the accumulator holds
the current piece reversed. -/
def splitNlAux : List Char → List Char → List (List Char)
  | acc, [] => [acc.reverse]
  | acc, c :: t => if c == '\n' then acc.reverse :: splitNlAux [] t else splitNlAux (c :: acc) t

/-- Python `str.splitlines()` restricted to `\n` separators: a trailing
newline does not produce a final empty line, and the empty string has no
lines. -/
def pySplitLines (s : String) : List String :=
  let ps := (splitNlAux [] s.data).map String.mk
  if ps.getLast? == some "" then ps.dropLast else ps

/-- The `pathlib.PurePath.suffix` rule: the part of the final component
from its last dot, provided that dot is neither the first nor the last
character of the name. -/
def pySuffix (nm : String) : String :=
  match nm.data.reverse.findIdx? (fun c => c == '.') with
  | none => ""
  | some j =>
    let i := nm.data.length - 1 - j
    if 0 < i && i + 1 < nm.data.length then String.mk (nm.data.drop i) else ""

/-- Insert the characters of `kw` into `nm` at character position `i`. -/
def insertAt (nm : String) (i : Nat) (kw : String) : String :=
  String.mk (nm.data.take i ++ kw.data ++ nm.data.drop i)

/-- Boolean list-of-segments prefix test, used to model
`PurePath.relative_to` on paths represented by their part lists. -/
def pathStartsWith : List String → List String → Bool
  | [], _ => true
  | _ :: _, [] => false
  | a :: as, b :: bs => a == b && pathStartsWith as bs

/-- Model of `p.relative_to(base)` on part lists: the remaining segments
when `base` is a prefix of `p`, and `none` (a `ValueError` in Python)
otherwise. -/
def relativeTo (base p : List String) : Option (List String) :=
  if pathStartsWith base p then some (p.drop base.length) else none

/-- Render a relative part list the way `str(Path(...))` does. -/
def joinParts (l : List String) : String :=
  if l.isEmpty then "." else String.intercalate "/" l

/-- Fuelled shell-glob matcher: every step shrinks the combined length
of pattern and input, so the fuel passed by `globMatch` always
suffices.  (Fuel keeps the recursion structural, hence evaluable by the
kernel.) -/
def globMatchF : Nat → List Char → List Char → Bool
  | 0, _, _ => false
  | _ + 1, [], [] => true
  | _ + 1, [], _ :: _ => false
  | fuel + 1, '*' :: ps, [] => globMatchF fuel ps []
  | fuel + 1, '*' :: ps, c :: cs => globMatchF fuel ps (c :: cs) || globMatchF fuel ('*' :: ps) cs
  | fuel + 1, '?' :: ps, _ :: cs => globMatchF fuel ps cs
  | fuel + 1, p :: ps, c :: cs => p == c && globMatchF fuel ps cs
  | _ + 1, _ :: _, [] => false

/-- Shell-glob matching for the `*` and `?` wildcards, modelling
`fnmatch.fnmatch` on the case-sensitive POSIX path (character classes,
unused by this repository, are not modelled). -/
def globMatch (p s : List Char) : Bool :=
  globMatchF (p.length + s.length + 1) p s

/-! ### Executable matching combinators for the regular expressions

A matcher takes the input suffix and returns the list of possible
remaining suffixes after a match, ordered greedy-first, which reproduces
the leftmost/greedy match choice of Python `re` for the patterns below. -/

/-- Type of backtracking matchers: input suffix to possible rests. -/
def RxM : Type := List Char → List (List Char)

/-- Empty pattern: consumes nothing. -/
def rxEps : RxM := fun s => [s]

/-- Literal character sequence. -/
def rxLit (l : List Char) : RxM :=
  fun s => if isPrefixB l s then [s.drop l.length] else []

/-- Literal given as a string. -/
def rxLitS (l : String) : RxM := rxLit l.data

/-- Single character from the class decided by `p`. -/
def rxCh (p : Char → Bool) : RxM :=
  fun s => match s with
  | [] => []
  | c :: t => if p c then [t] else []

/-- Sequencing of two matchers. -/
def rxSeq (a b : RxM) : RxM := fun s => (a s).flatMap (fun r => b r)

/-- Alternation (first alternative preferred, as in `re`). -/
def rxAlt (a b : RxM) : RxM := fun s => a s ++ b s

/-- Greedy Kleene star over a character class: rests ordered with the
longest consumption first. -/
def rxStar (p : Char → Bool) : RxM
  | [] => [[]]
  | c :: t => if p c then rxStar p t ++ [c :: t] else [c :: t]

/-- Greedy plus over a character class. -/
def rxPlus (p : Char → Bool) : RxM := rxSeq (rxCh p) (rxStar p)

/-- The `$` anchor under `re.MULTILINE`: matches (consuming nothing) at
the end of the input or just before a newline. -/
def rxEol : RxM :=
  fun s => match s with
  | [] => [[]]
  | c :: t => if c == '\n' then [c :: t] else []

/-- Sequence a list of matchers. -/
def rxCat (ms : List RxM) : RxM := ms.foldr rxSeq rxEps

/-- Unanchored search, modelling `re.search`: does the pattern match
starting at some position? -/
def rxSearch (m : RxM) : List Char → Bool
  | [] => !(m []).isEmpty
  | s@(_ :: t) => !(m s).isEmpty || rxSearch m t

/-- Count of non-overlapping matches scanning left to right with the
greedy match at each position, modelling `len(re.findall ...)` for an
unanchored pattern.  The fuel argument is an upper bound on the steps
(callers pass `length + 1`, which always suffices). -/
def rxCountAll (m : RxM) : Nat → List Char → Nat
  | 0, _ => 0
  | _ + 1, [] => if (m []).isEmpty then 0 else 1
  | fuel + 1, s@(_ :: t) =>
    match (m s).head? with
    | some rest => if rest.length < s.length then 1 + rxCountAll m fuel rest else 1 + rxCountAll m fuel t
    | none => rxCountAll m fuel t

/-- Count of non-overlapping matches of a `^`-anchored pattern under
`re.MULTILINE`: matches may start only at the beginning of the input or
right after a newline. -/
def rxCountAnchored (m : RxM) : Nat → Bool → List Char → Nat
  | 0, _, _ => 0
  | _ + 1, atStart, [] => if atStart && !(m []).isEmpty then 1 else 0
  | fuel + 1, atStart, s@(c :: t) =>
    if atStart then
      match (m s).head? with
      | some rest =>
        if rest.length < s.length then
          1 + rxCountAnchored m fuel ((s.take (s.length - rest.length)).getLast? == some '\n') rest
        else 1 + rxCountAnchored m fuel (c == '\n') t
      | none => rxCountAnchored m fuel (c == '\n') t
    else rxCountAnchored m fuel (c == '\n') t

/-- Word characters for `\w` (ASCII range, which covers every pattern
the scanner applies). -/
def isWordCh (c : Char) : Bool :=
  ('a' ≤ c && c ≤ 'z') || ('A' ≤ c && c ≤ 'Z') || ('0' ≤ c && c ≤ '9') || c == '_'

/-- Digits for `\d`. -/
def isDigitCh (c : Char) : Bool := '0' ≤ c && c ≤ '9'

/-- The quote class used by the credential patterns (double or single
quote, written via code points to keep the source plain). -/
def isQuoteCh (c : Char) : Bool := c == Char.ofNat 34 || c == Char.ofNat 39

/-- Any character except a closing parenthesis. -/
def notCloseParen (c : Char) : Bool := !(c == ')')

/-- Any character except a newline (the `.` class without `DOTALL`). -/
def notNewline (c : Char) : Bool := !(c == '\n')

/-- Zero or more whitespace characters. -/
def rxWs0 : RxM := rxStar isSpaceCh

/-- One or more whitespace characters. -/
def rxWs1 : RxM := rxPlus isSpaceCh

/-! ### Configuration (`LargeCodebaseConfig`) -/

/-- Size ceiling in bytes: `MAX_FILE_SIZE_MB * 1024 * 1024`. -/
def maxFileSizeBytes : Nat := 10 * 1024 * 1024

/-- Batch size of the processing loop (`BATCH_SIZE`). -/
def batchSize : Nat := 50

/-- Directory names pruned at every level of the walk (`SKIP_DIRS`). -/
def skipDirs : List String :=
  [".git", ".svn", ".hg",
   "node_modules", "venv", "env", ".venv", "virtualenv",
   "__pycache__", ".pytest_cache", ".mypy_cache", ".tox",
   "dist", "build", "target", "out", "bin", "obj",
   ".idea", ".vscode", ".vs", ".eclipse",
   "coverage", "htmlcov", ".coverage",
   "logs", "log", "tmp", "temp", "cache",
   "vendor", "third_party", "external", "deps",
   "test_data", "fixtures", "mock_data", "data"]

/-- High-priority directory names (`PRIORITY_DIRS`). -/
def priorityDirs : List String :=
  ["src", "lib", "app", "core", "main", "server", "client", "api"]

/-- Primary-language extensions (`PRIORITY_EXTENSIONS`). -/
def priorityExtensions : List String :=
  [".py", ".js", ".ts", ".java", ".cpp", ".c", ".go", ".rs"]

/-- Structured-configuration extensions. -/
def configExtensions : List String := [".json", ".yaml", ".yml", ".toml", ".ini"]

/-- Documentation extensions. -/
def docExtensions : List String := [".md", ".txt", ".rst"]

/-- Entry-point filename keywords. -/
def entryKeywords : List String := ["main", "index", "app", "server", "client", "core"]

/-- Configuration filename keywords. -/
def configKeywords : List String := ["config", "setting", "constant"]

/-- Security-sensitive filename keywords. -/
def securityKeywords : List String :=
  ["auth", "login", "password", "token", "security", "crypto"]

/-- Substring indicators of test files used by `_is_test_file`. -/
def testIndicators : List String :=
  ["test_", "_test", "tests", "spec_", "_spec",
   "mock_", "_mock", "fixture", "e2e_", "integration_"]

/-- Exact parent-directory names treated as test directories. -/
def testParentDirs : List String :=
  ["test", "tests", "spec", "specs", "__tests__", "e2e", "integration"]

/-! ### Priority scoring (`_calculate_file_priority`)

A path is represented by its `parts` list, exactly as `Path.parts`
(including the segments of the resolved scan root and the file name as
the final segment). -/

/-- Directory-based bonus: +3 for every part whose lower-case form is a
priority directory name (the loop runs over all parts, the file name
included). -/
def priorityDirBonus (parts : List String) : Int :=
  3 * ((parts.filter (fun part => priorityDirs.contains (lowerStr part))).length : Int)

/-- Extension-based bonus from the lower-cased `path.suffix`. -/
def extensionBonus (nm : String) : Int :=
  let ext := lowerStr (pySuffix nm)
  if priorityExtensions.contains ext then 5
  else if configExtensions.contains ext then 2
  else if docExtensions.contains ext then 1
  else 0

/-- Filename keyword bonus on the lower-cased name: +3 for an entry-point
keyword, otherwise +2 for a configuration keyword. -/
def nameKeywordBonus (nm : String) : Int :=
  let nl := lowerStr nm
  if entryKeywords.any (fun k => strContains nl k) then 3
  else if configKeywords.any (fun k => strContains nl k) then 2
  else 0

/-- Security keyword bonus on the lower-cased name. -/
def securityBonus (nm : String) : Int :=
  if securityKeywords.any (fun k => strContains (lowerStr nm) k) then 10 else 0

/-- Depth penalty: `depth - 6` when the part count exceeds 6. -/
def depthPenalty (parts : List String) : Int :=
  if 6 < parts.length then (parts.length : Int) - 6 else 0

/-- The priority score of `_calculate_file_priority`: base 1 plus the
bonuses, minus the depth penalty, floored at 0. -/
def calcPriority (parts : List String) : Int :=
  let nm := parts.getLastD ""
  max (1 + priorityDirBonus parts + extensionBonus nm + nameKeywordBonus nm
       + securityBonus nm - depthPenalty parts) 0

/-- The test-file heuristic `_is_test_file`: it inspects the lower-cased
file name and the lower-cased name of the immediate parent directory
only. -/
def isTestFile (parts : List String) : Bool :=
  let nm := lowerStr (parts.getLastD "")
  let parent := lowerStr (parts.dropLast.getLastD "")
  testIndicators.any (fun ind => strContains nm ind) ||
  testIndicators.any (fun ind => strContains parent ind) ||
  testParentDirs.contains parent

/-! ### The filesystem model and `os.walk` -/

/-- Result of opening and reading a file: the decoded content, or the
message of the raised `OSError`. -/
inductive ReadResult where
  | ok : String → ReadResult
  | err : String → ReadResult
deriving DecidableEq, Repr

/-- Whether a read succeeded. -/
def ReadResult.isOk : ReadResult → Bool
  | .ok _ => true
  | .err _ => false

/-- A regular file: its name, the result of `stat` (`none` models an
`OSError` during `stat`, which makes discovery skip the entry), and the
result of opening it during the analysis phase. -/
structure SFile where
  name : String
  statSize : Option Nat
  content : ReadResult
deriving DecidableEq, Repr

mutual
/-- A directory tree: name, regular files, subdirectories.  (The
subdirectory list is a mutually defined inductive rather than `List
SDir` so that the walk below is a structural recursion the kernel can
evaluate.) -/
inductive SDir where
  | node : String → List SFile → SDirList → SDir
/-- A list of subdirectories, mutually defined with `SDir`. -/
inductive SDirList where
  | nil : SDirList
  | cons : SDir → SDirList → SDirList
end

/-- Convert a plain list of directories into an `SDirList`. -/
def sdirListOf : List SDir → SDirList
  | [] => .nil
  | d :: ds => .cons d (sdirListOf ds)

/-- Convenient tree constructor taking a plain list of children. -/
def mkDir (n : String) (fs : List SFile) (ds : List SDir) : SDir :=
  .node n fs (sdirListOf ds)

/-- Name of a directory. -/
def SDir.name : SDir → String
  | .node n _ _ => n

/-- Files of a directory. -/
def SDir.files : SDir → List SFile
  | .node _ fs _ => fs

/-- Subdirectories of a directory. -/
def SDir.subs : SDir → SDirList
  | .node _ _ ds => ds

/-- Walk the children of a directory whose own frame has path `pre`,
mirroring `os.walk` after the in-place pruning
`dirs[:] = [d for d in dirs if d not in SKIP_DIRS]`: a skip-listed child
contributes no frame at all and is never descended into. -/
def walkChildren (pre : List String) : SDirList → List (List String × List SFile)
  | .nil => []
  | .cons (SDir.node n fs subs) ds =>
    (if skipDirs.contains n then []
     else (pre ++ [n], fs) :: walkChildren (pre ++ [n]) subs)
    ++ walkChildren pre ds

/-- Model of `os.walk(directory)` in top-down order: `none` stands for a
missing or unreadable root, for which `os.walk` (with its default
`onerror=None`) silently yields no frame at all.  The root frame itself
is yielded unconditionally; pruning applies to descendants only. -/
def osWalk (rootPath : List String) : Option SDir → List (List String × List SFile)
  | none => []
  | some d => (rootPath, d.files) :: walkChildren rootPath d.subs

/-! ### Discovery and selection (phase 1 of `analyze_codebase_smart`) -/

/-- The per-file filter chain of the discovery loop before the priority
check: include-pattern match on the bare name, successful `stat` with
size within the ceiling, and (when requested) not a test file. -/
def passesPST (patterns : List String) (skipTests : Bool)
    (dirPath : List String) (f : SFile) : Bool :=
  patterns.any (fun pat => globMatch pat.data f.name.data) &&
  (match f.statSize with
   | none => false
   | some sz => decide (sz ≤ maxFileSizeBytes)) &&
  !(skipTests && isTestFile (dirPath ++ [f.name]))

/-- All files of the walked frames that pass the pattern/size/test
filters, paired with the path of their directory, in walk order. -/
def discoverPST (frames : List (List String × List SFile))
    (patterns : List String) (skipTests : Bool) : List (List String × SFile) :=
  frames.flatMap (fun fr => (fr.2.filter (passesPST patterns skipTests fr.1)).map (fun f => (fr.1, f)))

/-- The dictionary appended to `files_to_analyze` for one candidate; the
`name` and `content` fields model the information the stored `Path`
handle gives access to later (its final component and the data returned
by `open`). -/
structure FileRec where
  parts : List String
  name : String
  priority : Int
  size : Nat
  ext : String
  content : ReadResult
deriving DecidableEq, Repr

/-- Build the candidate record of a discovered file, or `none` when its
priority is not positive (`if priority > 0`). -/
def mkFileRec (dp : List String) (f : SFile) : Option FileRec :=
  let parts := dp ++ [f.name]
  let pr := calcPriority parts
  if 0 < pr then
    some ⟨parts, f.name, pr, f.statSize.getD 0, lowerStr (pySuffix f.name), f.content⟩
  else none

/-- The `files_to_analyze` list: candidate records of the filtered files
with positive priority, in discovery order. -/
def filesToAnalyzeOf (frames : List (List String × List SFile))
    (patterns : List String) (skipTests : Bool) : List FileRec :=
  (discoverPST frames patterns skipTests).filterMap (fun df => mkFileRec df.1 df.2)

/-- Insert a record into a priority-descending list, before the first
element of lower-or-equal priority.  The element being inserted always
comes from earlier in the original list than the already-placed ones, so
placing it before equal priorities preserves the stability of the
Python sort. -/
def insertDesc (x : FileRec) : List FileRec → List FileRec
  | [] => [x]
  | y :: ys => if y.priority ≤ x.priority then x :: y :: ys else y :: insertDesc x ys

/-- Stable descending sort by priority, modelling
`list.sort(key=priority, reverse=True)` (a stable insertion sort; any
stable sort computes the same list). -/
def sortByPriority : List FileRec → List FileRec
  | [] => []
  | x :: xs => insertDesc x (sortByPriority xs)

/-! ### Heuristic content analysis (`_analyze_file_content`) -/

/-- The table of security regular expressions with their messages; the
patterns are applied case-insensitively (the caller lowers the content,
and the literals here are already lower case). -/
def hardcodedRx (kw : String) : RxM :=
  rxCat [rxLitS kw, rxWs0, rxLitS "=", rxWs0,
         rxCh isQuoteCh, rxStar (fun c => !isQuoteCh c), rxCh isQuoteCh]

/-- Pattern of a dangerous dynamic call: the name, optional whitespace,
an opening parenthesis. -/
def dangerousCallRx (fn : String) : RxM :=
  rxCat [rxLitS fn, rxWs0, rxLitS "("]

/-- Pattern of a shell-injection-prone subprocess call. -/
def shellInjectionRx : RxM :=
  rxCat [rxLitS "subprocess.call(", rxStar notCloseParen,
         rxLitS "shell", rxWs0, rxLitS "=", rxWs0, rxLitS "true"]

/-- Pattern of naive string-concatenated SQL. -/
def sqlInjectionRx : RxM :=
  rxCat [rxLitS "sql", rxStar notNewline, rxCh isQuoteCh, rxStar notNewline,
         rxLitS "+", rxStar notNewline, rxCh isQuoteCh]

/-- The `security_patterns` table. -/
def securityPatterns : List (RxM × String) :=
  [(hardcodedRx "password", "Hardcoded password detected"),
   (hardcodedRx "api_key", "Hardcoded API key detected"),
   (hardcodedRx "secret", "Hardcoded secret detected"),
   (dangerousCallRx "eval", "Dangerous eval() usage"),
   (dangerousCallRx "exec", "Dangerous exec() usage"),
   (shellInjectionRx, "Shell injection risk"),
   (sqlInjectionRx, "Potential SQL injection")]

/-- Pattern of index-based iteration over `range(len(...))`. -/
def rangeLenRx : RxM :=
  rxCat [rxLitS "for", rxWs1, rxPlus isWordCh, rxWs1, rxLitS "in", rxWs1,
         rxLitS "range", rxWs0, rxLitS "(", rxWs0, rxLitS "len", rxWs0,
         rxLitS "(", rxPlus notCloseParen, rxLitS ")", rxWs0, rxLitS ")"]

/-- Pattern of a long blocking sleep. -/
def longSleepRx : RxM :=
  rxCat [rxLitS "time.sleep", rxWs0, rxLitS "(", rxWs0,
         rxCh (fun c => '1' ≤ c && c ≤ '9'), rxStar isDigitCh, rxWs0, rxLitS ")"]

/-- Pattern of a request with an explicit `timeout=None`. -/
def noTimeoutRx : RxM :=
  rxCat [rxLitS "requests.get", rxWs0, rxLitS "(", rxStar notCloseParen,
         rxLitS "timeout", rxWs0, rxLitS "=", rxWs0, rxLitS "None"]

/-- Pattern of a line-final single-element append call. -/
def appendCallRx : RxM :=
  rxCat [rxLitS ".append", rxWs0, rxLitS "(", rxPlus notCloseParen,
         rxLitS ")", rxWs0, rxEol]

/-- The `perf_patterns` table (applied case-sensitively to the raw
content, with the multiline end-of-line anchor). -/
def performancePatterns : List (RxM × String) :=
  [(rangeLenRx, "Use enumerate() instead of range(len())"),
   (longSleepRx, "Long sleep detected (consider async)"),
   (noTimeoutRx, "Missing request timeout"),
   (appendCallRx, "Consider list comprehension for better performance")]

/-- Pattern of a function definition line (anchored at line starts). -/
def defLineRx : RxM := rxCat [rxWs0, rxLitS "def", rxWs1, rxPlus isWordCh]

/-- Pattern of a TODO/FIXME/HACK/XXX marker (applied to lowered content). -/
def todoRx : RxM :=
  rxCat [rxLitS "#", rxWs0,
         rxAlt (rxLitS "todo") (rxAlt (rxLitS "fixme") (rxAlt (rxLitS "hack") (rxLitS "xxx")))]

/-- Count of function definitions, modelling
`len(re.findall(r'^\s*def\s+(\w+)', content, re.MULTILINE))`. -/
def countDefs (content : String) : Nat :=
  rxCountAnchored defLineRx (content.data.length + 1) true content.data

/-- Count of TODO-style markers, modelling
`len(re.findall(r'#\s*(TODO|FIXME|HACK|XXX)', content, re.IGNORECASE))`. -/
def countTodos (content : String) : Nat :=
  rxCountAll todoRx ((lowerStr content).data.length + 1) (lowerStr content).data

/-- Security bucket of one file. -/
def securityIssuesOf (rp : String) (content : String) : List String :=
  securityPatterns.filterMap (fun pm =>
    if rxSearch pm.1 (lowerStr content).data then some (rp ++ ": " ++ pm.2) else none)

/-- Performance bucket of one file. -/
def performanceIssuesOf (rp : String) (content : String) : List String :=
  performancePatterns.filterMap (fun pm =>
    if rxSearch pm.1 content.data then some (rp ++ ": " ++ pm.2) else none)

/-- Large-file complexity issue. -/
def largeFileIssues (rp : String) (content : String) : List String :=
  let n := (pySplitLines content).length
  if 500 < n then [rp ++ ": " ++ ("Large file (" ++ toString n ++ " lines)")] else []

/-- Many-functions complexity issue (only for `.py` files, the raw
suffix being compared). -/
def manyFunIssues (rp : String) (nm : String) (content : String) : List String :=
  if pySuffix nm == ".py" then
    let n := countDefs content
    if 20 < n then [rp ++ ": " ++ ("Many functions (" ++ toString n ++ ")")] else []
  else []

/-- The block-opening keywords of the nesting heuristic. -/
def blockKeywords : List String := ["if ", "for ", "while ", "try:", "with "]

/-- One step of the nesting-level loop over `(max_nesting,
current_nesting)`: on a keyword line the counter grows by the number of
opening braces, or by one on a brace-free line whose stripped form ends
with a colon; every line then decrements by its closing braces, clamped
at zero (`Nat` subtraction matches the `max(0, ...)` of the source). -/
def nestLine (st : Nat × Nat) (line : String) : Nat × Nat :=
  let stripped := pyStrip line
  let opens := countChar line (Char.ofNat 123)
  let closes := countChar line (Char.ofNat 125)
  if blockKeywords.any (fun k => strContains stripped k) then
    let cur := st.2 + opens + (if opens == 0 && lastCharIs stripped ':' then 1 else 0)
    (max st.1 cur, cur - closes)
  else (st.1, st.2 - closes)

/-- The running maximum of the nesting heuristic over all lines. -/
def maxNesting (content : String) : Nat :=
  ((pySplitLines content).foldl nestLine (0, 0)).1

/-- High-nesting complexity issue. -/
def nestingIssues (rp : String) (content : String) : List String :=
  let m := maxNesting content
  if 6 < m then [rp ++ ": " ++ ("High nesting level (" ++ toString m ++ ")")] else []

/-- The complexity bucket, in the order the source appends. -/
def complexityIssuesOf (rp : String) (nm : String) (content : String) : List String :=
  largeFileIssues rp content ++ manyFunIssues rp nm content ++ nestingIssues rp content

/-- General bucket: the TODO/FIXME marker-density issue. -/
def generalIssuesOf (rp : String) (content : String) : List String :=
  let t := countTodos content
  if 5 < t then [rp ++ ": " ++ ("Many TODOs/FIXMEs (" ++ toString t ++ ")")] else []

/-- Whether the complexity/maintainability rules run. -/
def complexityFocus (focus : List String) : Bool :=
  focus.contains "complexity" || focus.contains "maintainability"

/-- The per-file issue buckets returned by `_analyze_file_content`. -/
structure FileIssues where
  general : List String
  security : List String
  performance : List String
  complexity : List String
deriving DecidableEq, Repr

/-- Model of `_analyze_file_content`.  The relative path used to tag
every issue is computed against the process working directory
(`Path.cwd()`), not the scan root; `none` models the `ValueError` raised
by `relative_to` for a file outside the working directory. -/
def analyzeFileContent (cwd parts : List String) (content : String)
    (focus : List String) : Option FileIssues :=
  match relativeTo cwd parts with
  | none => none
  | some rel =>
    let rp := joinParts rel
    some
      { general := if complexityFocus focus then generalIssuesOf rp content else []
        security := if focus.contains "security" then securityIssuesOf rp content else []
        performance := if focus.contains "performance" then performanceIssuesOf rp content else []
        complexity := if complexityFocus focus then
            complexityIssuesOf rp (parts.getLastD "") content
          else [] }

/-! ### Batched aggregation (phase 2 of `analyze_codebase_smart`) -/

/-- Summary record of a high-priority file. -/
structure Summary where
  file : String
  lines : Nat
  priority : Int
  issuesCount : Nat
deriving DecidableEq, Repr

/-- The `analysis_results` aggregate (field names follow the source
dictionary keys). -/
structure AnalysisResults where
  files_analyzed : Nat
  total_lines : Nat
  issues_found : List String
  security_issues : List String
  performance_issues : List String
  complexity_issues : List String
  languages : List (String × Nat)
  file_summaries : List Summary
deriving DecidableEq, Repr

/-- Initial empty aggregate. -/
def emptyResults : AnalysisResults := ⟨0, 0, [], [], [], [], [], []⟩

/-- Increment the per-extension counter, modelling
`languages[ext] = languages.get(ext, 0) + 1` on an insertion-ordered
dictionary. -/
def bumpLang : List (String × Nat) → String → List (String × Nat)
  | [], e => [(e, 1)]
  | (k, v) :: t, e => if k == e then (k, v + 1) :: t else (k, v) :: bumpLang t e

/-- Message stub for the `ValueError` raised by `relative_to` (the
precise Python message text is irrelevant to every claim). -/
def valueErrorMsg : String := "is not in the subpath of the current working directory"

/-- Process one selected file, modelling the body of the inner batch
loop including its `try/except`: a failed read only appends a general
error issue; a successful read updates the counters and language map
before the content analysis, so a late `ValueError` from `relative_to`
leaves those increments in place and appends an error issue. -/
def processFile (cwd rootDir : List String) (focus : List String)
    (res : AnalysisResults) (fi : FileRec) : AnalysisResults :=
  match fi.content with
  | .err e =>
    { res with issues_found := res.issues_found ++ ["Error reading " ++ fi.name ++ ": " ++ e] }
  | .ok content =>
    let lineCount := (pySplitLines content).length
    let res1 := { res with
      files_analyzed := res.files_analyzed + 1
      total_lines := res.total_lines + lineCount
      languages := bumpLang res.languages fi.ext }
    match analyzeFileContent cwd fi.parts content focus with
    | none =>
      { res1 with issues_found := res1.issues_found ++
          ["Error reading " ++ fi.name ++ ": " ++ valueErrorMsg] }
    | some fis =>
      let res2 := { res1 with
        issues_found := res1.issues_found ++ fis.general
        security_issues := res1.security_issues ++ fis.security
        performance_issues := res1.performance_issues ++ fis.performance
        complexity_issues := res1.complexity_issues ++ fis.complexity }
      if 8 < fi.priority then
        { res2 with file_summaries := res2.file_summaries ++
            [{ file := joinParts (fi.parts.drop rootDir.length)
               lines := lineCount
               priority := fi.priority
               issuesCount := fis.general.length + fis.security.length +
                 fis.performance.length + fis.complexity.length }] }
      else res2

/-- Fuelled chunking of a list into consecutive slices of `b + 1`
elements: each step removes at least one element, so the length fuel
passed by `toBatchesPos` always suffices. -/
def toBatchesAux (b : Nat) : Nat → List α → List (List α)
  | 0, _ => []
  | _ + 1, [] => []
  | fuel + 1, x :: xs => (x :: xs).take (b + 1) :: toBatchesAux b fuel ((x :: xs).drop (b + 1))

/-- Split a list into consecutive chunks of `b + 1` elements. -/
def toBatchesPos (b : Nat) (l : List α) : List (List α) :=
  toBatchesAux b l.length l

/-- The slices `selected_files[i:i + batch_size]` of the batch loop (the
degenerate batch size 0, with which the Python loop would not advance,
is given an arbitrary total meaning and never used: `BATCH_SIZE` is 50). -/
def toBatches (bs : Nat) (l : List α) : List (List α) :=
  match bs with
  | 0 => [l]
  | b + 1 => toBatchesPos b l

/-- The batched processing loop of phase 2. -/
def runBatches (cwd rootDir : List String) (focus : List String)
    (bs : Nat) (selected : List FileRec) : AnalysisResults :=
  (toBatches bs selected).foldl
    (fun r batch => batch.foldl (processFile cwd rootDir focus) r) emptyResults

/-! ### The full scan (`analyze_codebase_smart`) -/

/-- Parameters of one scan invocation. -/
structure ScanParams where
  maxFiles : Nat
  patterns : List String
  skipTests : Bool
  focus : List String
deriving DecidableEq, Repr

/-- Everything `analyze_codebase_smart` computes: the discovery total,
the candidate and selected lists, the aggregate results, and the fields
persisted into the project context (the rendered report text and the
timestamp are pure functions of these data and the clock and are not
modelled).  The scan itself has no failure outcome. -/
structure ScanOutcome where
  totalFilesFound : Nat
  filesToAnalyze : List FileRec
  selected : List FileRec
  results : AnalysisResults
  ctxTotalFiles : Nat
  ctxAnalyzedFiles : Nat
  metricsFilesAnalyzed : Nat
  metricsTotalLines : Nat
  metricsLanguages : List (String × Nat)
  metricsIssuesCount : Nat
deriving DecidableEq, Repr

/-- Model of `analyze_codebase_smart`: walk with pruning, filter, score,
sort descending by priority, truncate to `max_files`, process in batches
of `BATCH_SIZE`, and update the persisted context fields. -/
def analyzeCodebaseSmart (cwd rootPath : List String) (root : Option SDir)
    (p : ScanParams) : ScanOutcome :=
  let frames := osWalk rootPath root
  let totalFound := (frames.map (fun fr => fr.2.length)).sum
  let fta := filesToAnalyzeOf frames p.patterns p.skipTests
  let selected := (sortByPriority fta).take p.maxFiles
  let results := runBatches cwd rootPath p.focus batchSize selected
  { totalFilesFound := totalFound
    filesToAnalyze := fta
    selected := selected
    results := results
    ctxTotalFiles := totalFound
    ctxAnalyzedFiles := selected.length
    metricsFilesAnalyzed := results.files_analyzed
    metricsTotalLines := results.total_lines
    metricsLanguages := results.languages
    metricsIssuesCount := results.issues_found.length + results.security_issues.length +
      results.performance_issues.length + results.complexity_issues.length }

/-! ### Concrete inputs used by witnesses and counterexamples -/

/-- A depth-7 path with no scoring bonuses: its file scores exactly 0. -/
def deepTree : SDir :=
  mkDir "u" [] [mkDir "v" [] [mkDir "w" [] [mkDir "x" [] [mkDir "y" []
    [mkDir "z" [⟨"g.xyz", some 10, .ok "hi"⟩] []]]]]]

/-- A root holding a single readable `main.py`. -/
def mainTree : SDir := mkDir "r" [⟨"main.py", some 10, .ok "x = 1"⟩] []

/-- A root holding a single readable `api.py`. -/
def apiTree : SDir := mkDir "r" [⟨"api.py", some 10, .ok "y = 2"⟩] []

/-- A file nested two levels below a `tests` directory. -/
def testsTree : SDir :=
  mkDir "r" [] [mkDir "tests" [] [mkDir "sub" [⟨"helper.py", some 10, .ok "x = 1"⟩] []]]

/-- A scan root `sub` (inside working directory `w`) holding a file with
a hardcoded password. -/
def subTree : SDir := mkDir "sub" [⟨"a.py", some 20, .ok "password = \"x\""⟩] []

/-- A root with a real source directory and a `node_modules` subtree
holding a file that matches the include patterns. -/
def prunedTree : SDir :=
  mkDir "r" []
    [mkDir "src" [⟨"main.py", some 10, .ok "x = 1"⟩] [],
     mkDir "node_modules" [⟨"index.js", some 10, .ok "x"⟩] []]

/-! ### Helper lemmas -/

/-- Inserting into the sorted tail permutes to consing. -/
theorem insertDesc_perm (x : FileRec) (l : List FileRec) :
    List.Perm (insertDesc x l) (x :: l) := by
  induction l with
  | nil => exact List.Perm.refl _
  | cons y ys ih =>
    by_cases h : y.priority ≤ x.priority
    · simp [insertDesc, h]
    · simp only [insertDesc, h, if_false]
      exact (List.Perm.cons y ih).trans (List.Perm.swap x y ys)

/-- The sort is a permutation of its input. -/
theorem sortByPriority_perm (l : List FileRec) : List.Perm (sortByPriority l) l := by
  induction l with
  | nil => exact List.Perm.refl _
  | cons x xs ih => exact (insertDesc_perm x (sortByPriority xs)).trans (List.Perm.cons x ih)

/-- The sort preserves length. -/
theorem sortByPriority_length (l : List FileRec) :
    (sortByPriority l).length = l.length :=
  (sortByPriority_perm l).length_eq

/-- The sort preserves membership. -/
theorem mem_sortByPriority {a : FileRec} {l : List FileRec} :
    a ∈ sortByPriority l ↔ a ∈ l :=
  (sortByPriority_perm l).mem_iff

/-- Concatenating the batches gives back the original list (for any
sufficient fuel). -/
theorem toBatchesAux_flatten (b : Nat) : ∀ (fuel : Nat) (l : List α), l.length ≤ fuel →
    (toBatchesAux b fuel l).flatten = l
  | 0, l, h => by
    have hl : l = [] := List.eq_nil_of_length_eq_zero (by omega)
    subst hl; simp [toBatchesAux]
  | fuel + 1, [], _ => by simp [toBatchesAux]
  | fuel + 1, x :: xs, h => by
    simp only [toBatchesAux, List.flatten_cons]
    rw [toBatchesAux_flatten b fuel ((x :: xs).drop (b + 1))
        (by simp only [List.length_drop, List.length_cons] at h ⊢; omega)]
    exact List.take_append_drop _ _

/-- Folding batch-by-batch is folding the whole list, for any positive
batch size. -/
theorem foldl_toBatches {α β : Type} (f : β → α → β) (bs : Nat) (hbs : 0 < bs)
    (l : List α) (init : β) :
    (toBatches bs l).foldl (fun r batch => batch.foldl f r) init = l.foldl f init := by
  obtain ⟨b, rfl⟩ : ∃ b, bs = b + 1 := ⟨bs - 1, by omega⟩
  show (toBatchesAux b l.length l).foldl (fun r batch => batch.foldl f r) init = l.foldl f init
  rw [← List.foldl_flatten, toBatchesAux_flatten b l.length l (le_refl _)]

/-- Batched processing of no files returns the empty aggregate. -/
theorem runBatches_nil (cwd rootDir : List String) (focus : List String) (bs : Nat) :
    runBatches cwd rootDir focus bs [] = emptyResults := by
  unfold runBatches
  cases bs with
  | zero => simp [toBatches]
  | succ b => simp [toBatches, toBatchesPos, toBatchesAux]

/-- Processing one file increments `files_analyzed` exactly when the
read succeeds. -/
theorem processFile_files_analyzed (cwd rootDir : List String) (focus : List String)
    (res : AnalysisResults) (fi : FileRec) :
    (processFile cwd rootDir focus res fi).files_analyzed
      = res.files_analyzed + (if fi.content.isOk then 1 else 0) := by
  unfold processFile
  cases h : fi.content with
  | err e => simp [ReadResult.isOk]
  | ok c =>
    simp only [ReadResult.isOk, if_true]
    cases hA : analyzeFileContent cwd fi.parts c focus with
    | none => simp
    | some fis => by_cases hp : (8 : Int) < fi.priority <;> simp [hp]

/-- Folding the per-file step counts the successfully read files. -/
theorem foldl_processFile_count (cwd rootDir : List String) (focus : List String) :
    ∀ (l : List FileRec) (res : AnalysisResults),
      (l.foldl (processFile cwd rootDir focus) res).files_analyzed
        = res.files_analyzed + (l.filter (fun fi => fi.content.isOk)).length := by
  intro l
  induction l with
  | nil => intro res; simp
  | cons x xs ih =>
    intro res
    simp only [List.foldl_cons]
    rw [ih, processFile_files_analyzed]
    by_cases hx : x.content.isOk
    · simp [hx, List.filter_cons]
      omega
    · simp [hx, List.filter_cons]

/-! ### Claims C7, C8, C10 -/

/-- C7 (counterexample): with an invalid or unreadable scan root,
`analyze_codebase_smart` does not surface a failure result at all: on
this concrete input its outcome is identical to that of scanning an
ordinary empty directory (an empty report over zero discovered files),
so no outcome distinguishable from a report is produced. -/
theorem claim_C7_counterexample :
    analyzeCodebaseSmart ["w"] ["w", "r"] none ⟨500, ["*.py"], true, ["security"]⟩
      = analyzeCodebaseSmart ["w"] ["w", "r"] (some (mkDir "r" [] []))
          ⟨500, ["*.py"], true, ["security"]⟩ ∧
    (analyzeCodebaseSmart ["w"] ["w", "r"] none
      ⟨500, ["*.py"], true, ["security"]⟩).totalFilesFound = 0 := by
  constructor
  · decide
  · decide

/-- C7 (amended): an invalid or unreadable root is never surfaced as a
failure: `os.walk` (default `onerror=None`) silently yields nothing, so
for every choice of parameters the scan completes normally and its whole
outcome — counts, selection, aggregate results, and persisted context
fields — equals that of scanning an empty directory. -/
theorem claim_C7 (cwd rootPath : List String) (p : ScanParams) (nm : String) :
    analyzeCodebaseSmart cwd rootPath none p
      = analyzeCodebaseSmart cwd rootPath (some (mkDir nm [] [])) p := by
  unfold analyzeCodebaseSmart
  simp [osWalk, walkChildren, filesToAnalyzeOf, discoverPST, sortByPriority,
        runBatches_nil, SDir.files, SDir.subs, mkDir, sdirListOf]

/-- C8: the batched processing loop computes exactly the same aggregate
`AnalysisResults` as a plain sequential left fold of the per-file step
over the selected files in order, for every positive batch size; hence
the batch size has no effect on the final aggregate. -/
theorem claim_C8 (cwd rootDir : List String) (focus : List String) (bs : Nat)
    (hbs : 0 < bs) (selected : List FileRec) :
    runBatches cwd rootDir focus bs selected
      = selected.foldl (processFile cwd rootDir focus) emptyResults := by
  unfold runBatches
  exact foldl_toBatches _ bs hbs selected emptyResults

/-- C8 witness: the equivalence applied at batch size 50 on a concrete
two-file selection. -/
theorem claim_C8_witness :
    0 < 50 ∧
    runBatches ["w"] ["w", "r"] ["security"] 50
        [⟨["w", "r", "main.py"], "main.py", 9, 10, ".py", .ok "x = 1"⟩,
         ⟨["w", "r", "core.py"], "core.py", 9, 10, ".py", .err "Permission denied"⟩]
      = [⟨["w", "r", "main.py"], "main.py", 9, 10, ".py", .ok "x = 1"⟩,
         ⟨["w", "r", "core.py"], "core.py", 9, 10, ".py", .err "Permission denied"⟩].foldl
          (processFile ["w"] ["w", "r"] ["security"]) emptyResults :=
  ⟨by decide, claim_C8 ["w"] ["w", "r"] ["security"] 50 (by decide) _⟩

/-- C10: after every scan the persisted `analyzed_files` equals the
number of selected files, `code_metrics.files_analyzed` counts only the
selected files whose read succeeded, and whenever at least one selected
file fails to read the former strictly exceeds the latter. -/
theorem claim_C10 (cwd rootPath : List String) (root : Option SDir) (p : ScanParams) :
    (analyzeCodebaseSmart cwd rootPath root p).ctxAnalyzedFiles
      = (analyzeCodebaseSmart cwd rootPath root p).selected.length ∧
    (analyzeCodebaseSmart cwd rootPath root p).metricsFilesAnalyzed
      = ((analyzeCodebaseSmart cwd rootPath root p).selected.filter
          (fun fi => fi.content.isOk)).length ∧
    ((∃ fi ∈ (analyzeCodebaseSmart cwd rootPath root p).selected, fi.content.isOk = false) →
      (analyzeCodebaseSmart cwd rootPath root p).metricsFilesAnalyzed
        < (analyzeCodebaseSmart cwd rootPath root p).ctxAnalyzedFiles) := by
  have hmetrics : (analyzeCodebaseSmart cwd rootPath root p).metricsFilesAnalyzed
      = ((analyzeCodebaseSmart cwd rootPath root p).selected.filter
          (fun fi => fi.content.isOk)).length := by
    show (runBatches cwd rootPath p.focus batchSize
        (analyzeCodebaseSmart cwd rootPath root p).selected).files_analyzed = _
    unfold runBatches
    rw [foldl_toBatches _ batchSize (by decide) _ emptyResults,
        foldl_processFile_count]
    simp [emptyResults]
  refine ⟨rfl, hmetrics, ?_⟩
  rintro ⟨fi, hmem, hbad⟩
  rw [hmetrics]
  show _ < (analyzeCodebaseSmart cwd rootPath root p).selected.length
  exact List.length_filter_lt_length_iff_exists.2 ⟨fi, hmem, by simp [hbad]⟩

/-- C10 witness: a concrete scan over one readable and one unreadable
selected file, where the strict inequality fires (metrics 1 < persisted
2). -/
theorem claim_C10_witness :
    (∃ fi ∈ (analyzeCodebaseSmart ["w"] ["w", "r"]
        (some (mkDir "r"
          [⟨"main.py", some 10, .ok "x = 1"⟩,
           ⟨"core.py", some 10, .err "Permission denied"⟩] []))
        ⟨500, ["*.py"], true, ["security"]⟩).selected, fi.content.isOk = false) ∧
    (analyzeCodebaseSmart ["w"] ["w", "r"]
        (some (mkDir "r"
          [⟨"main.py", some 10, .ok "x = 1"⟩,
           ⟨"core.py", some 10, .err "Permission denied"⟩] []))
        ⟨500, ["*.py"], true, ["security"]⟩).metricsFilesAnalyzed
      < (analyzeCodebaseSmart ["w"] ["w", "r"]
        (some (mkDir "r"
          [⟨"main.py", some 10, .ok "x = 1"⟩,
           ⟨"core.py", some 10, .err "Permission denied"⟩] []))
        ⟨500, ["*.py"], true, ["security"]⟩).ctxAnalyzedFiles :=
  ⟨by decide,
   (claim_C10 ["w"] ["w", "r"]
      (some (mkDir "r"
        [⟨"main.py", some 10, .ok "x = 1"⟩,
         ⟨"core.py", some 10, .err "Permission denied"⟩] []))
      ⟨500, ["*.py"], true, ["security"]⟩).2.2 (by decide)⟩

/-! ### Claims C2 and C9 -/

/-- C2 (counterexample): a candidate that passes the pattern/size/test
filtering need not be selected even when far fewer than `max_files`
candidates exist — the depth-7 file `u/v/w/x/y/z/g.xyz` passes all three
filters, only one candidate exists against a cap of 5, yet nothing is
selected, because its priority score is 0 and the scanner additionally
requires a positive score. -/
theorem claim_C2_counterexample :
    ¬ ((discoverPST (osWalk ["u"] (some deepTree)) ["*.xyz"] true).length < 5 →
        ∀ df ∈ discoverPST (osWalk ["u"] (some deepTree)) ["*.xyz"] true,
          ∃ r ∈ (analyzeCodebaseSmart ["u"] ["u"] (some deepTree)
              ⟨5, ["*.xyz"], true, ["security"]⟩).selected,
            r.parts = df.1 ++ [df.2.name]) := by decide

/-- C2 (amended): the selected batch never exceeds `max_files`, and
whenever fewer than `max_files` candidates pass the pattern/size/test
filtering AND carry a positive priority score (the `files_to_analyze`
list), all of those candidates are selected. -/
theorem claim_C2 (cwd rootPath : List String) (root : Option SDir) (p : ScanParams) :
    (analyzeCodebaseSmart cwd rootPath root p).selected.length ≤ p.maxFiles ∧
    ((analyzeCodebaseSmart cwd rootPath root p).filesToAnalyze.length < p.maxFiles →
      ∀ r ∈ (analyzeCodebaseSmart cwd rootPath root p).filesToAnalyze,
        r ∈ (analyzeCodebaseSmart cwd rootPath root p).selected) := by
  constructor
  · show ((sortByPriority (filesToAnalyzeOf (osWalk rootPath root)
      p.patterns p.skipTests)).take p.maxFiles).length ≤ p.maxFiles
    rw [List.length_take]
    exact min_le_left _ _
  · intro hlen r hr
    show r ∈ (sortByPriority (filesToAnalyzeOf (osWalk rootPath root)
      p.patterns p.skipTests)).take p.maxFiles
    rw [List.take_of_length_le (by rw [sortByPriority_length]; exact le_of_lt hlen)]
    exact mem_sortByPriority.mpr hr

/-- C2 witness: with one qualifying candidate against a cap of 5, the
candidate record of `main.py` is selected. -/
theorem claim_C2_witness :
    (analyzeCodebaseSmart ["w"] ["w", "r"] (some mainTree)
        ⟨5, ["*.py"], true, ["security"]⟩).filesToAnalyze.length < 5 ∧
    (⟨["w", "r", "main.py"], "main.py", 9, 10, ".py", .ok "x = 1"⟩ : FileRec)
      ∈ (analyzeCodebaseSmart ["w"] ["w", "r"] (some mainTree)
          ⟨5, ["*.py"], true, ["security"]⟩).selected :=
  ⟨by decide,
   (claim_C2 ["w"] ["w", "r"] (some mainTree) ⟨5, ["*.py"], true, ["security"]⟩).2
     (by decide) _ (by decide)⟩

/-- C9: every record of the candidate list `files_to_analyze`, and hence
every selected and analyzed record, carries a strictly positive priority
score: a discovered file whose computed priority is exactly 0 is never
placed on the candidate list and never analyzed, regardless of how few
candidates exist. -/
theorem claim_C9 (cwd rootPath : List String) (root : Option SDir) (p : ScanParams) :
    (∀ r ∈ (analyzeCodebaseSmart cwd rootPath root p).filesToAnalyze, 0 < r.priority) ∧
    (∀ r ∈ (analyzeCodebaseSmart cwd rootPath root p).selected, 0 < r.priority) := by
  have hfta : ∀ r ∈ filesToAnalyzeOf (osWalk rootPath root) p.patterns p.skipTests,
      0 < r.priority := by
    intro r hr
    rw [filesToAnalyzeOf, List.mem_filterMap] at hr
    obtain ⟨df, _, hmk⟩ := hr
    simp only [mkFileRec] at hmk
    split at hmk
    · next hpos =>
      obtain rfl := Option.some_injective _ hmk
      exact hpos
    · exact absurd hmk (by simp)
  refine ⟨hfta, fun r hr => hfta r ?_⟩
  exact mem_sortByPriority.mp (List.mem_of_mem_take hr)

/-- C9 witness: a zero-scoring candidate is reachable (the depth-7 file
of `deepTree` scores exactly 0), and the theorem applied to a concrete
scan shows the candidate record of `api.py` has positive priority. -/
theorem claim_C9_witness :
    calcPriority ["u", "v", "w", "x", "y", "z", "g.xyz"] = 0 ∧
    (0 : Int) < (⟨["w", "r", "api.py"], "api.py", 6, 10, ".py", .ok "y = 2"⟩ : FileRec).priority :=
  ⟨by decide,
   (claim_C9 ["w"] ["w", "r"] (some apiTree) ⟨500, ["*.py"], true, ["security"]⟩).1
     _ (by decide)⟩

/-! ### Claims C1 and C4 -/

/-- Every frame produced below a list of children has its path extending
the parent path by segments none of which is skip-listed. -/
theorem walkChildren_below : ∀ (pre : List String) (l : SDirList) fr,
    fr ∈ walkChildren pre l →
    ∃ below, fr.1 = pre ++ below ∧ ∀ seg ∈ below, skipDirs.contains seg = false
  | pre, .nil, fr, h => by simp [walkChildren] at h
  | pre, .cons (SDir.node n fs subs) ds, fr, h => by
    simp only [walkChildren] at h
    rcases List.mem_append.mp h with h1 | h2
    · by_cases hskip : skipDirs.contains n
      · rw [if_pos hskip] at h1
        simp at h1
      · rw [if_neg hskip] at h1
        rcases List.mem_cons.mp h1 with rfl | h1
        · exact ⟨[n], rfl, by
            intro seg hs
            rcases List.mem_singleton.mp hs with rfl
            simpa using hskip⟩
        · obtain ⟨below, hb, hsegs⟩ := walkChildren_below (pre ++ [n]) subs fr h1
          refine ⟨n :: below, by simp [hb], ?_⟩
          intro seg hs
          rcases List.mem_cons.mp hs with rfl | hs
          · simpa using hskip
          · exact hsegs seg hs
    · exact walkChildren_below pre ds fr h2

/-- Every frame of the walk has no skip-listed segment below the root. -/
theorem osWalk_below (rootPath : List String) (root : Option SDir) :
    ∀ fr ∈ osWalk rootPath root, ∀ seg ∈ fr.1.drop rootPath.length,
      skipDirs.contains seg = false := by
  intro fr hfr seg hseg
  cases root with
  | none => simp [osWalk] at hfr
  | some d =>
    simp only [osWalk] at hfr
    rcases List.mem_cons.mp hfr with rfl | h
    · rw [List.drop_length] at hseg
      simp at hseg
    · obtain ⟨below, hb, hsegs⟩ := walkChildren_below rootPath d.subs fr h
      rw [hb, List.drop_left] at hseg
      exact hsegs seg hseg

/-- C1: pruning happens at each tree level before descending, so a
directory whose name is in `SKIP_DIRS` is never even listed by the walk:
no walked frame and no discovered candidate has a skip-listed directory
segment anywhere below the scan root, whatever the include patterns.
Hence no file under a subtree rooted at a skip-listed name can appear in
the discovered-candidate set. -/
theorem claim_C1 (rootPath : List String) (root : Option SDir)
    (patterns : List String) (skipTests : Bool) :
    (∀ fr ∈ osWalk rootPath root, ∀ seg ∈ fr.1.drop rootPath.length,
        skipDirs.contains seg = false) ∧
    (∀ df ∈ discoverPST (osWalk rootPath root) patterns skipTests,
        ∀ seg ∈ df.1.drop rootPath.length, skipDirs.contains seg = false) := by
  refine ⟨osWalk_below rootPath root, ?_⟩
  intro df hdf seg hseg
  rw [discoverPST, List.mem_flatMap] at hdf
  obtain ⟨fr, hfr, hdf⟩ := hdf
  rw [List.mem_map] at hdf
  obtain ⟨f, _, rfl⟩ := hdf
  exact osWalk_below rootPath root fr hfr seg hseg

/-- C1 witness: in a concrete tree the matching file inside
`node_modules` is not discovered at all, while the theorem applied to
the discovered `src/main.py` candidate confirms its only segment below
the root is not skip-listed. -/
theorem claim_C1_witness :
    (["R", "node_modules"], (⟨"index.js", some 10, .ok "x"⟩ : SFile))
      ∉ discoverPST (osWalk ["R"] (some prunedTree)) ["*.py", "*.js"] true ∧
    skipDirs.contains "src" = false :=
  ⟨by decide,
   (claim_C1 ["R"] (some prunedTree) ["*.py", "*.js"] true).2
     (["R", "src"], ⟨"main.py", some 10, .ok "x = 1"⟩) (by decide) "src" (by decide)⟩

/-- C4 (counterexample): `_is_test_file` inspects only the file name and
the immediate parent directory name, so `r/tests/sub/helper.py` — whose
grandparent directory `tests` is an exact test-directory indicator — is
not classified as a test file and remains in the candidate set even with
`skip_tests=True`, refuting exclusion for ancestors at arbitrary depth. -/
theorem claim_C4_counterexample :
    isTestFile ["r", "tests", "sub", "helper.py"] = false ∧
    (["r", "tests", "sub"], (⟨"helper.py", some 10, .ok "x = 1"⟩ : SFile))
      ∈ discoverPST (osWalk ["r"] (some testsTree)) ["*.py"] true ∧
    "tests" ∈ (["r", "tests", "sub"] : List String) ∧
    testParentDirs.contains "tests" = true := by decide

/-- C4 (amended): when test exclusion is requested, a file qualifies as
a candidate only if `_is_test_file` rejects it, i.e. only if neither its
name nor its immediate parent directory name contains a test-indicator
substring and the parent name is not an exact test-directory name;
indicators on ancestors above the immediate parent do not exclude a
file. -/
theorem claim_C4 (rootPath : List String) (root : Option SDir) (patterns : List String) :
    ∀ df ∈ discoverPST (osWalk rootPath root) patterns true,
      isTestFile (df.1 ++ [df.2.name]) = false := by
  intro df hdf
  rw [discoverPST, List.mem_flatMap] at hdf
  obtain ⟨fr, _, hdf⟩ := hdf
  rw [List.mem_map] at hdf
  obtain ⟨f, hf, rfl⟩ := hdf
  rw [List.mem_filter] at hf
  have hp := hf.2
  rw [passesPST] at hp
  simp only [Bool.and_eq_true, Bool.not_eq_true, Bool.and_eq_true, true_and] at hp
  simpa using hp.2

/-- C4 witness: the theorem applied to a concrete discovered candidate. -/
theorem claim_C4_witness :
    isTestFile ((["w", "r"] : List String) ++ ["main.py"]) = false :=
  claim_C4 ["w", "r"] (some mainTree) ["*.py"]
    (["w", "r"], ⟨"main.py", some 10, .ok "x = 1"⟩) (by decide)

/-! ### Claims C5 and C6 -/

/-- Membership in a conditional singleton list forces the element. -/
theorem mem_if_singleton {α : Type} {c : Prop} [Decidable c] {x s : α}
    (h : s ∈ if c then [x] else ([] : List α)) : s = x := by
  split at h
  · simpa using h
  · simp at h

/-- Every security issue string starts with the relative path and a
colon. -/
theorem mem_securityIssuesOf {s rp content : String}
    (h : s ∈ securityIssuesOf rp content) : ∃ rest, s = rp ++ ": " ++ rest := by
  rw [securityIssuesOf, List.mem_filterMap] at h
  obtain ⟨pm, _, hpm⟩ := h
  split at hpm
  · exact ⟨pm.2, (Option.some_injective _ hpm).symm⟩
  · exact absurd hpm (by simp)

/-- Every performance issue string starts with the relative path and a
colon. -/
theorem mem_performanceIssuesOf {s rp content : String}
    (h : s ∈ performanceIssuesOf rp content) : ∃ rest, s = rp ++ ": " ++ rest := by
  rw [performanceIssuesOf, List.mem_filterMap] at h
  obtain ⟨pm, _, hpm⟩ := h
  split at hpm
  · exact ⟨pm.2, (Option.some_injective _ hpm).symm⟩
  · exact absurd hpm (by simp)

/-- Every general (TODO-density) issue string starts with the relative
path and a colon. -/
theorem mem_generalIssuesOf {s rp content : String}
    (h : s ∈ generalIssuesOf rp content) : ∃ rest, s = rp ++ ": " ++ rest :=
  ⟨_, mem_if_singleton h⟩

/-- Every complexity issue string starts with the relative path and a
colon. -/
theorem mem_complexityIssuesOf {s rp nm content : String}
    (h : s ∈ complexityIssuesOf rp nm content) : ∃ rest, s = rp ++ ": " ++ rest := by
  rw [complexityIssuesOf] at h
  rcases List.mem_append.mp h with h | h
  rcases List.mem_append.mp h with h | h
  · exact ⟨_, mem_if_singleton h⟩
  · rw [manyFunIssues] at h
    split at h
    · exact ⟨_, mem_if_singleton h⟩
    · simp at h
  · exact ⟨_, mem_if_singleton h⟩

/-- C5 (counterexample): `_analyze_file_content` computes the issue
prefix with `file_path.relative_to(Path.cwd())`.  In a concrete scan
whose root `w/sub` differs from the working directory `w`, the produced
issue is tagged `sub/a.py`, while the path relative to the scan root
would be `a.py` — so the claim that issues are prefixed with the path
relative to the scan root is false. -/
theorem claim_C5_counterexample :
    (analyzeCodebaseSmart ["w"] ["w", "sub"] (some subTree)
        ⟨500, ["*.py"], true, ["security"]⟩).results.security_issues
      = ["sub/a.py: Hardcoded password detected"] ∧
    relativeTo ["w", "sub"] ["w", "sub", "a.py"] = some ["a.py"] ∧
    isPrefixB "a.py: ".data "sub/a.py: Hardcoded password detected".data = false ∧
    isPrefixB "sub/a.py: ".data "sub/a.py: Hardcoded password detected".data = true := by
  decide

/-- C5 (amended): every issue string produced by `_analyze_file_content`
is prefixed with the file path expressed relative to the process working
directory (`Path.cwd()`), not the scan root; for a file outside the
working directory the analysis raises instead of producing issues. -/
theorem claim_C5 (cwd parts : List String) (content : String) (focus : List String)
    (fis : FileIssues) (h : analyzeFileContent cwd parts content focus = some fis) :
    ∃ rel, relativeTo cwd parts = some rel ∧
      ∀ s, (s ∈ fis.general ∨ s ∈ fis.security ∨ s ∈ fis.performance ∨ s ∈ fis.complexity) →
        ∃ rest, s = joinParts rel ++ ": " ++ rest := by
  rw [analyzeFileContent] at h
  cases hrel : relativeTo cwd parts with
  | none =>
    rw [hrel] at h
    exact absurd h (by simp)
  | some rel =>
    rw [hrel] at h
    obtain rfl := Option.some_injective _ h
    refine ⟨rel, rfl, ?_⟩
    intro s hs
    rcases hs with hs | hs | hs | hs
    · have hg : s ∈ (if complexityFocus focus = true then
          generalIssuesOf (joinParts rel) content else ([] : List String)) := hs
      by_cases hc : complexityFocus focus = true
      · rw [if_pos hc] at hg
        exact mem_generalIssuesOf hg
      · rw [if_neg hc] at hg
        simp at hg
    · have hg : s ∈ (if focus.contains "security" = true then
          securityIssuesOf (joinParts rel) content else ([] : List String)) := hs
      by_cases hc : focus.contains "security" = true
      · rw [if_pos hc] at hg
        exact mem_securityIssuesOf hg
      · rw [if_neg hc] at hg
        simp at hg
    · have hg : s ∈ (if focus.contains "performance" = true then
          performanceIssuesOf (joinParts rel) content else ([] : List String)) := hs
      by_cases hc : focus.contains "performance" = true
      · rw [if_pos hc] at hg
        exact mem_performanceIssuesOf hg
      · rw [if_neg hc] at hg
        simp at hg
    · have hg : s ∈ (if complexityFocus focus = true then
          complexityIssuesOf (joinParts rel) (parts.getLastD "") content
        else ([] : List String)) := hs
      by_cases hc : complexityFocus focus = true
      · rw [if_pos hc] at hg
        exact mem_complexityIssuesOf hg
      · rw [if_neg hc] at hg
        simp at hg

/-- C5 witness: the theorem applied to a concrete analysis whose one
security issue is prefixed with the cwd-relative path `sub/a.py`. -/
theorem claim_C5_witness :
    ∃ rel, relativeTo ["w"] ["w", "sub", "a.py"] = some rel ∧
      ∀ s, (s ∈ ([] : List String) ∨ s ∈ ["sub/a.py: Hardcoded password detected"] ∨
            s ∈ ([] : List String) ∨ s ∈ ([] : List String)) →
        ∃ rest, s = joinParts rel ++ ": " ++ rest :=
  claim_C5 ["w"] ["w", "sub", "a.py"] "password = \"x\"" ["security"]
    ⟨[], ["sub/a.py: Hardcoded password detected"], [], []⟩ (by decide)

/-- One nesting step fixes `(0, 0)` on a line with no braces and no
keyword-plus-trailing-colon combination. -/
theorem nestLine_zero {line : String}
    (h1 : countChar line (Char.ofNat 123) = 0) (h2 : countChar line (Char.ofNat 125) = 0)
    (h3 : ¬(blockKeywords.any (fun k => strContains (pyStrip line) k) = true ∧
            lastCharIs (pyStrip line) ':' = true)) :
    nestLine (0, 0) line = (0, 0) := by
  rw [nestLine]
  by_cases hkw : blockKeywords.any (fun k => strContains (pyStrip line) k) = true
  · have hcol : lastCharIs (pyStrip line) ':' = false := by
      cases hc : lastCharIs (pyStrip line) ':'
      · rfl
      · exact absurd ⟨hkw, hc⟩ h3
    simp [hkw, hcol, h1, h2]
  · simp [hkw, h2]

/-- The nesting fold stays at `(0, 0)` over lines satisfying the
brace-free, no-keyword-colon condition. -/
theorem foldl_nestLine_zero : ∀ (lines : List String),
    (∀ l ∈ lines,
      countChar l (Char.ofNat 123) = 0 ∧ countChar l (Char.ofNat 125) = 0 ∧
      ¬(blockKeywords.any (fun k => strContains (pyStrip l) k) = true ∧
        lastCharIs (pyStrip l) ':' = true)) →
    lines.foldl nestLine (0, 0) = (0, 0)
  | [], _ => rfl
  | l :: ls, h => by
    obtain ⟨h1, h2, h3⟩ := h l (List.mem_cons_self l ls)
    rw [List.foldl_cons, nestLine_zero h1 h2 h3]
    exact foldl_nestLine_zero ls (fun x hx => h x (List.mem_cons_of_mem l hx))

/-- C6 (counterexample): for a brace-free (indentation-delimited) file
the nesting heuristic does not degrade to zero: the counter is also
incremented by lines that contain a block keyword and end with a colon,
so seven `if a:` lines with no brace characters at all reach a running
maximum of 7 and the high-nesting issue fires. -/
theorem claim_C6_counterexample :
    countChar "if a:\nif a:\nif a:\nif a:\nif a:\nif a:\nif a:" (Char.ofNat 123) = 0 ∧
    countChar "if a:\nif a:\nif a:\nif a:\nif a:\nif a:\nif a:" (Char.ofNat 125) = 0 ∧
    maxNesting "if a:\nif a:\nif a:\nif a:\nif a:\nif a:\nif a:" = 7 ∧
    nestingIssues "a.py" "if a:\nif a:\nif a:\nif a:\nif a:\nif a:\nif a:"
      = ["a.py: High nesting level (7)"] := by decide

/-- C6 (amended): for every file whose content has no brace characters
and no line that both contains a block-opening keyword and (after
stripping) ends with a colon, the running maximum of the nesting
heuristic is zero and the high-nesting complexity issue is never
emitted. -/
theorem claim_C6 (content : String)
    (h : ∀ l ∈ pySplitLines content,
        countChar l (Char.ofNat 123) = 0 ∧ countChar l (Char.ofNat 125) = 0 ∧
        ¬(blockKeywords.any (fun k => strContains (pyStrip l) k) = true ∧
          lastCharIs (pyStrip l) ':' = true)) :
    maxNesting content = 0 ∧ ∀ rp, nestingIssues rp content = [] := by
  have hfold : (pySplitLines content).foldl nestLine (0, 0) = (0, 0) :=
    foldl_nestLine_zero (pySplitLines content) h
  have hm : maxNesting content = 0 := by rw [maxNesting, hfold]
  refine ⟨hm, ?_⟩
  intro rp
  simp [nestingIssues, hm]

/-- C6 witness: the amended statement applied to a concrete two-line
assignment-only file. -/
theorem claim_C6_witness :
    maxNesting "x = 1\ny = f(2)" = 0 ∧ nestingIssues "a.py" "x = 1\ny = f(2)" = [] :=
  ⟨(claim_C6 "x = 1\ny = f(2)" (by decide)).1,
   (claim_C6 "x = 1\ny = f(2)" (by decide)).2 "a.py"⟩

/-! ### Claim C3 -/

/-- A list is a Boolean prefix of itself followed by anything. -/
theorem isPrefixB_append_self : ∀ (p r : List Char), isPrefixB p (p ++ r) = true
  | [], _ => rfl
  | a :: as, r => by simp [isPrefixB, isPrefixB_append_self as r]

/-- A Boolean prefix is a Boolean substring. -/
theorem isInfixB_of_isPrefixB : ∀ (p s : List Char), isPrefixB p s = true → isInfixB p s = true
  | p, [], h => h
  | p, c :: t, h => by simp [isInfixB, h]

/-- A list occurs as a Boolean substring of any sandwich around it. -/
theorem isInfixB_sandwich : ∀ (A p B : List Char), isInfixB p (A ++ p ++ B) = true
  | [], p, B => isInfixB_of_isPrefixB p (p ++ B) (isPrefixB_append_self p B)
  | a :: A, p, B => by
    show isInfixB p (a :: (A ++ p ++ B)) = true
    simp only [isInfixB]
    rw [isInfixB_sandwich A p B]
    simp

/-- The security keywords are already lower case. -/
theorem secKw_lower : ∀ k ∈ securityKeywords, k.data.map asciiLower = k.data := by decide

/-- Inserting a security keyword anywhere into a name triggers the
security bonus. -/
theorem securityBonus_insert (nm kw : String) (i : Nat) (hkw : kw ∈ securityKeywords) :
    securityBonus (insertAt nm i kw) = 10 := by
  rw [securityBonus, if_pos]
  rw [List.any_eq_true]
  refine ⟨kw, hkw, ?_⟩
  rw [strContains]
  have hdata : (lowerStr (insertAt nm i kw)).data
      = (nm.data.take i).map asciiLower ++ kw.data ++ (nm.data.drop i).map asciiLower := by
    show (nm.data.take i ++ kw.data ++ nm.data.drop i).map asciiLower = _
    rw [List.map_append, List.map_append, secKw_lower kw hkw]
  rw [hdata]
  exact isInfixB_sandwich _ _ _

/-- Without any security keyword in the lower-cased name, the security
bonus is zero. -/
theorem securityBonus_eq_zero {nm : String}
    (h : ∀ k ∈ securityKeywords, strContains (lowerStr nm) k = false) :
    securityBonus nm = 0 := by
  have hne : ¬(securityKeywords.any (fun k => strContains (lowerStr nm) k) = true) := by
    rw [List.any_eq_true]
    rintro ⟨k, hk, hpk⟩
    rw [h k hk] at hpk
    cases hpk
  rw [securityBonus, if_neg hne]

/-- The directory bonus of a path splits off the contribution of its
final component. -/
theorem priorityDirBonus_concat (l : List String) (x : String) :
    priorityDirBonus (l ++ [x]) = priorityDirBonus l
      + (if priorityDirs.contains (lowerStr x) then 3 else 0) := by
  rw [priorityDirBonus, priorityDirBonus, List.filter_append, List.length_append]
  by_cases h : priorityDirs.contains (lowerStr x)
  · rw [if_pos h]
    simp only [List.filter, h, List.length_cons, List.length_nil]
    push_cast
    ring
  · rw [if_neg h]
    simp only [List.filter, h, List.length_nil]
    push_cast
    ring

/-- The name keyword bonus is non-negative. -/
theorem nameKeywordBonus_nonneg (nm : String) : 0 ≤ nameKeywordBonus nm := by
  rw [nameKeywordBonus]
  split
  · norm_num
  · split <;> norm_num

/-- The name keyword bonus is at most 3. -/
theorem nameKeywordBonus_le (nm : String) : nameKeywordBonus nm ≤ 3 := by
  rw [nameKeywordBonus]
  split
  · norm_num
  · split <;> norm_num

/-- The extension bonus depends only on the suffix. -/
theorem extensionBonus_congr {a b : String} (h : pySuffix a = pySuffix b) :
    extensionBonus a = extensionBonus b := by
  rw [extensionBonus, extensionBonus, h]

/-- The depth penalty of a path depends only on its length. -/
theorem depthPenalty_concat (l : List String) (a b : String) :
    depthPenalty (l ++ [a]) = depthPenalty (l ++ [b]) := by
  simp [depthPenalty, List.length_append]

/-- The priority of a path with an explicit final component. -/
theorem calcPriority_concat (l : List String) (x : String) :
    calcPriority (l ++ [x]) = max (1 + priorityDirBonus (l ++ [x]) + extensionBonus x
      + nameKeywordBonus x + securityBonus x - depthPenalty (l ++ [x])) 0 := by
  rw [calcPriority, List.getLastD_concat]

/-- C3 (counterexample): inserting the security keyword `token` into the
middle of `auth_main.py` — leaving extension, directories and depth
unchanged — destroys the entry-point keyword `main`, and since the
security bonus was already granted for `auth`, the score strictly
decreases (19 to 16). -/
theorem claim_C3_counterexample :
    insertAt "auth_main.py" 7 "token" = "auth_matokenin.py" ∧
    "token" ∈ securityKeywords ∧
    pySuffix "auth_matokenin.py" = pySuffix "auth_main.py" ∧
    (["proj", "auth_matokenin.py"] : List String).length
      = (["proj", "auth_main.py"] : List String).length ∧
    calcPriority ["proj", "auth_matokenin.py"] < calcPriority ["proj", "auth_main.py"] := by
  decide

/-- C3 (amended): for a path whose bare filename does not already
contain a security-sensitive keyword, inserting one anywhere into the
filename — leaving the extension, the directory segments and the path
depth unchanged — never decreases the priority score computed by
`_calculate_file_priority`. -/
theorem claim_C3 (ds : List String) (nm : String) (i : Nat) (kw : String)
    (hkw : kw ∈ securityKeywords)
    (hfree : ∀ k ∈ securityKeywords, strContains (lowerStr nm) k = false)
    (hext : pySuffix (insertAt nm i kw) = pySuffix nm) :
    calcPriority (ds ++ [nm]) ≤ calcPriority (ds ++ [insertAt nm i kw]) := by
  rw [calcPriority_concat, calcPriority_concat]
  have hs0 : securityBonus nm = 0 := securityBonus_eq_zero hfree
  have hs10 : securityBonus (insertAt nm i kw) = 10 := securityBonus_insert nm kw i hkw
  have he : extensionBonus (insertAt nm i kw) = extensionBonus nm := extensionBonus_congr hext
  have hd : depthPenalty (ds ++ [insertAt nm i kw]) = depthPenalty (ds ++ [nm]) :=
    depthPenalty_concat ds _ _
  have hp1 := priorityDirBonus_concat ds nm
  have hp2 := priorityDirBonus_concat ds (insertAt nm i kw)
  have hn1 : nameKeywordBonus nm ≤ 3 := nameKeywordBonus_le nm
  have hn2 : 0 ≤ nameKeywordBonus (insertAt nm i kw) := nameKeywordBonus_nonneg _
  have hb1 : (if priorityDirs.contains (lowerStr nm) then (3 : Int) else 0) ≤ 3 := by
    split <;> norm_num
  have hb2 : (0 : Int) ≤ (if priorityDirs.contains (lowerStr (insertAt nm i kw))
      then (3 : Int) else 0) := by
    split <;> norm_num
  refine max_le_max ?_ (le_refl (0 : Int))
  rw [hs0, hs10, he, hd, hp1, hp2]
  omega

/-- C3 witness: inserting `auth` at the front of `app_helper.py`
(extension preserved, no prior security keyword) raises the score, as
the amended theorem guarantees. -/
theorem claim_C3_witness :
    "auth" ∈ securityKeywords ∧
    pySuffix (insertAt "app_helper.py" 0 "auth") = pySuffix "app_helper.py" ∧
    calcPriority (["proj"] ++ ["app_helper.py"])
      ≤ calcPriority (["proj"] ++ [insertAt "app_helper.py" 0 "auth"]) :=
  ⟨by decide, by decide,
   claim_C3 ["proj"] "app_helper.py" 0 "auth" (by decide) (by decide) (by decide)⟩
